import Mathlib

/-!
Verification development for the reminder chatbot in `src/server/src/bot.ts`
(the authoritative, more complete variant of the two sources).

The embedding models:
* the message (command) datatype and the token-level parsing helpers
  (`parseQuantity`, `parseUnit`, `convertDurationToSeconds`);
* the intent regexps of `parseMessage`, via a small executable backtracking
  regex interpreter (`matchRE`) over a regex syntax tree; each regexp of
  `bot.ts` is transliterated constructor-by-constructor;
* the per-session state (`State`) and the synchronous part of
  `executeMessage`.

JavaScript numbers produced by the patterns (`\d+` tokens, ids, counters) are
modelled as `Nat`; timestamps are modelled at second granularity by passing
the current time `now : Nat` explicitly.  The websocket handle and the
`setTimeout` callbacks are host side effects outside the synchronous
request/reply turn and are not part of the per-turn step function; the
`timeout` field of a reminder is therefore omitted.
-/

/-- The `TimeUnits` enum of `bot.ts` (values are the JS strings
"none"/"second"/"minute"/"hour", all of which are truthy). -/
inductive TimeUnits where
  | none
  | seconds
  | minutes
  | hours
deriving DecidableEq, Repr

/-- The `Message` union of `bot.ts`: one variant per parsed utterance. -/
inductive Message where
  | help
  | addReminder (text : String) (quantity : Nat) (unit : TimeUnits)
  | addReminderNoTime (text : String)
  | listReminders
  | clearAllReminders
  | clearReminder (id : Nat)
  | time (quantity : Nat) (unit : TimeUnits)
  | confirm (accepted : Bool)
  | unknown
deriving DecidableEq, Repr

/-- Character-list prefix test (used to model `String.prototype.startsWith`
at a granularity the kernel can evaluate). -/
def isPrefixL : List Char → List Char → Bool
  | [], _ => true
  | _ :: _, [] => false
  | p :: ps, c :: cs => p = c && isPrefixL ps cs

/-- `s.startsWith(pre)`. -/
def strStartsWith (s pre : String) : Bool := isPrefixL pre.toList s.toList

/-- `s.toLowerCase()` (the tokens involved are ASCII). -/
def strToLower (s : String) : String := String.mk (s.toList.map Char.toLower)

/-- Decimal value of a digit string (the value JS `Number` gives on the
digit-only tokens the patterns capture). -/
def digitsToNat : List Char → Nat → Nat
  | [], acc => acc
  | c :: cs, acc => digitsToNat cs (acc * 10 + (c.toNat - 48))

/-- `Number(s)` applied to the digit-only tokens the patterns capture.
(JS `Number` of a non-numeric string is NaN; no parser-built numeric token is
non-numeric.) -/
def jsToNat (s : String) : Nat := digitsToNat s.toList 0

/-- `parseQuantity` of `bot.ts`: `quantity.startsWith("a") ? 1 : Number(quantity)`. -/
def parseQuantity (quantity : String) : Nat :=
  if strStartsWith quantity "a" then 1 else jsToNat quantity

/-- `parseUnit` of `bot.ts`: case-insensitive prefix match on the unit token. -/
def parseUnit (unit : String) : TimeUnits :=
  if strStartsWith (strToLower unit) "sec" then TimeUnits.seconds
  else if strStartsWith (strToLower unit) "min" then TimeUnits.minutes
  else if strStartsWith (strToLower unit) "hour" then TimeUnits.hours
  else TimeUnits.none

/-- `convertDurationToSeconds` of `bot.ts`.  The `switch` in the source has no
`break`: the `minutes` branch multiplies by 60 and then falls through into the
`hours` branch, multiplying by 3600 as well.  The embedding reproduces the
fall-through. -/
def convertDurationToSeconds (quantity : Nat) (unit : TimeUnits) : Nat :=
  match unit with
  | TimeUnits.minutes => quantity * 60 * 3600
  | TimeUnits.hours => quantity * 3600
  | TimeUnits.seconds => quantity
  | TimeUnits.none => quantity

/-! ## Regex interpreter

The intent patterns of `bot.ts` are ECMAScript regexps with the `i` flag,
anchored with `^...$`, using only: literals, `.`, `\d`, ordered alternation,
concatenation, greedy `*`, greedy `?`, and named capture groups.  `RE` is the
corresponding syntax tree and `matchRE` the standard backtracking
interpreter: it returns every way the expression can match a prefix of the
input, as `(remaining input, captures)` pairs, in the engine's preference
order (alternatives left first, quantifiers longest first).  The head of the
list of full matches is therefore the match ECMAScript finds. -/

/-- Named captures: latest assignment first; lookup takes the first hit. -/
abbrev Caps := List (String × String)

/-- Regex syntax tree (only the constructs the bot's patterns use). -/
inductive RE where
  | eps
  | lit (s : String)
  | dot
  | digit
  | alt (r1 r2 : RE)
  | cat (r1 r2 : RE)
  | star (r : RE)
  | opt (r : RE)
  | group (n : String) (r : RE)
deriving Repr

/-- Case-insensitive literal match (the `i` flag); returns the rest. -/
def litMatch : List Char → List Char → Option (List Char)
  | [], cs => some cs
  | _ :: _, [] => Option.none
  | p :: ps, c :: cs => if p.toLower = c.toLower then litMatch ps cs else Option.none

/-- Is `c` a line terminator (which `.` does not match)? -/
def isLineTerminator (c : Char) : Bool :=
  c = '\n' ∨ c = '\r' ∨ c.toNat = 0x2028 ∨ c.toNat = 0x2029

/-- All ways `re` can match a prefix of `cs`, in backtracking preference
order.  `fuel` bounds the recursion depth (structural recursion, so that the
kernel can evaluate the interpreter); a zero-width `star` iteration is
abandoned, as in ECMAScript engines. -/
def matchRE : Nat → RE → List Char → Caps → List (List Char × Caps)
  | 0, _, _, _ => []
  | _ + 1, RE.eps, cs, caps => [(cs, caps)]
  | _ + 1, RE.lit s, cs, caps =>
      match litMatch s.toList cs with
      | some rest => [(rest, caps)]
      | Option.none => []
  | _ + 1, RE.dot, cs, caps =>
      match cs with
      | [] => []
      | c :: rest => if isLineTerminator c then [] else [(rest, caps)]
  | _ + 1, RE.digit, cs, caps =>
      match cs with
      | [] => []
      | c :: rest => if c.isDigit then [(rest, caps)] else []
  | fuel + 1, RE.alt r1 r2, cs, caps => matchRE fuel r1 cs caps ++ matchRE fuel r2 cs caps
  | fuel + 1, RE.cat r1 r2, cs, caps =>
      (matchRE fuel r1 cs caps).flatMap (fun p => matchRE fuel r2 p.1 p.2)
  | fuel + 1, RE.star r, cs, caps =>
      ((matchRE fuel r cs caps).flatMap (fun p =>
        if p.1.length < cs.length then matchRE fuel (RE.star r) p.1 p.2 else [])) ++ [(cs, caps)]
  | fuel + 1, RE.opt r, cs, caps => matchRE fuel r cs caps ++ [(cs, caps)]
  | fuel + 1, RE.group n r, cs, caps =>
      (matchRE fuel r cs caps).map (fun p =>
        (p.1, (n, String.mk (cs.take (cs.length - p.1.length))) :: p.2))

/-- First full (anchored `^...$`) match of `re` against `cs`, if any.  The
fuel is generous: every interpreter step consumes one unit and the recursion
depth is bounded by the pattern depth plus one level per consumed character. -/
def fullMatch (re : RE) (cs : List Char) : Option Caps :=
  (((matchRE (cs.length * 4 + 64) re cs []).filter (fun p => p.1.isEmpty)).head?).map
    (fun p => p.2)

/-- First regexp of an intent that matches the whole input (the regexps of an
intent are tried in order). -/
def runPatterns : List RE → List Char → Option Caps
  | [], _ => Option.none
  | re :: res, cs =>
      match fullMatch re cs with
      | some caps => some caps
      | Option.none => runPatterns res cs

/-- Right-nested concatenation of a list of regexps. -/
def catL : List RE → RE
  | [] => RE.eps
  | [r] => r
  | r :: rs => RE.cat r (catL rs)

/-- Left-preferred alternation of a non-empty list of regexps. -/
def altL : List RE → RE
  | [] => RE.eps
  | [r] => r
  | r :: rs => RE.alt r (altL rs)

/-- `r+` as `r r*`. -/
def rePlus (r : RE) : RE := RE.cat r (RE.star r)

/-! Transliterations of the intent regexps of `bot.ts`, in declaration
order.  Shared sub-patterns (`(?<quantity>\d+|a|an)` and
`(?<unit>(?:second|minute|hour)s?)`) are named once. -/

/-- `\d+|a|an` (the body of the `quantity` capture group). -/
def quantityRe : RE := altL [rePlus RE.digit, RE.lit "a", RE.lit "an"]

/-- `(?:second|minute|hour)s?` (the body of the `unit` capture group). -/
def unitRe : RE :=
  RE.cat (altL [RE.lit "second", RE.lit "minute", RE.lit "hour"]) (RE.opt (RE.lit "s"))

/-- `/^help\.?$/i` -/
def helpRe : RE := catL [RE.lit "help", RE.opt (RE.lit ".")]

/-- `/^(?:remind|tell) me (?:about|of) (?:(?:the|my) )*(?<text>.*) in (?<quantity>\d+|a|an) (?<unit>(?:second|minute|hour)s?)\.?$/i` -/
def addReminderRe1 : RE := catL [
  altL [RE.lit "remind", RE.lit "tell"], RE.lit " me ",
  altL [RE.lit "about", RE.lit "of"], RE.lit " ",
  RE.star (RE.cat (altL [RE.lit "the", RE.lit "my"]) (RE.lit " ")),
  RE.group "text" (RE.star RE.dot),
  RE.lit " in ",
  RE.group "quantity" quantityRe, RE.lit " ",
  RE.group "unit" unitRe,
  RE.opt (RE.lit ".")]

/-- `/^in (?<quantity>\d+|a|an) (?<unit>(?:second|minute|hour)s?),? (?:remind|tell) me (?:about|of) (?:(?:the|my) ) (?<text>.*)\.?$/i` -/
def addReminderRe2 : RE := catL [
  RE.lit "in ",
  RE.group "quantity" quantityRe, RE.lit " ",
  RE.group "unit" unitRe,
  RE.opt (RE.lit ","), RE.lit " ",
  altL [RE.lit "remind", RE.lit "tell"], RE.lit " me ",
  altL [RE.lit "about", RE.lit "of"], RE.lit " ",
  RE.cat (altL [RE.lit "the", RE.lit "my"]) (RE.lit " "), RE.lit " ",
  RE.group "text" (RE.star RE.dot),
  RE.opt (RE.lit ".")]

/-- `/^(?:remind|tell) me (?:about|of) (?:(?:the|my) )*(?<text>.*)?$/i` -/
def addReminderNoTimeRe : RE := catL [
  altL [RE.lit "remind", RE.lit "tell"], RE.lit " me ",
  altL [RE.lit "about", RE.lit "of"], RE.lit " ",
  RE.star (RE.cat (altL [RE.lit "the", RE.lit "my"]) (RE.lit " ")),
  RE.opt (RE.group "text" (RE.star RE.dot))]

/-- `/^(?:list|show|tell) (?:(?:me|all|of|my) )*reminders\.?$/i` -/
def listRemindersRe : RE := catL [
  altL [RE.lit "list", RE.lit "show", RE.lit "tell"], RE.lit " ",
  RE.star (RE.cat (altL [RE.lit "me", RE.lit "all", RE.lit "of", RE.lit "my"]) (RE.lit " ")),
  RE.lit "reminders", RE.opt (RE.lit ".")]

/-- `/^(?:clear|delete|remove|forget) (?:(?:all|of|my) )*reminders\.?$/i` -/
def clearAllRemindersRe : RE := catL [
  altL [RE.lit "clear", RE.lit "delete", RE.lit "remove", RE.lit "forget"], RE.lit " ",
  RE.star (RE.cat (altL [RE.lit "all", RE.lit "of", RE.lit "my"]) (RE.lit " ")),
  RE.lit "reminders", RE.opt (RE.lit ".")]

/-- `/^(?:clear|delete|remove|forget) (?:reminder )?(?<id>\d+)\.?$/i` -/
def clearReminderRe : RE := catL [
  altL [RE.lit "clear", RE.lit "delete", RE.lit "remove", RE.lit "forget"], RE.lit " ",
  RE.opt (RE.lit "reminder "),
  RE.group "id" (rePlus RE.digit), RE.opt (RE.lit ".")]

/-- `/^(?:(?:it takes) )*(?<quantity>\d+|a|an) (?<unit>(?:second|minute|hour)s?)\.?$/i` -/
def timeRe : RE := catL [
  RE.star (RE.cat (RE.lit "it takes") (RE.lit " ")),
  RE.group "quantity" quantityRe, RE.lit " ",
  RE.group "unit" unitRe, RE.opt (RE.lit ".")]

/-- `/^(?:yes|sure|yeah|ok|okay)\.?$/i` -/
def yesRe : RE :=
  RE.cat (altL [RE.lit "yes", RE.lit "sure", RE.lit "yeah", RE.lit "ok", RE.lit "okay"])
    (RE.opt (RE.lit "."))

/-- `/^(?:no|nope|nevermind)\.?$/i` -/
def noRe : RE :=
  RE.cat (altL [RE.lit "no", RE.lit "nope", RE.lit "nevermind"]) (RE.opt (RE.lit "."))

/-- Look up a named capture (a capture that did not participate is
`undefined` in JS; every capture the builders below read is mandatory in its
pattern, so the `getD ""` default is never taken on a successful match). -/
def cap (caps : Caps) (n : String) : String :=
  ((caps.find? (fun p => p.1 == n)).map (fun p => p.2)).getD ""

/-- The intent table of `bot.ts` (`parseMessage = createParser({intents, fallback})`):
each entry is the intent's regexps and its builder from the named captures. -/
def intents : List (List RE × (Caps → Message)) := [
  ([helpRe], fun _ => Message.help),
  ([addReminderRe1, addReminderRe2], fun caps =>
    Message.addReminder (cap caps "text") (parseQuantity (cap caps "quantity"))
      (parseUnit (cap caps "unit"))),
  ([addReminderNoTimeRe], fun caps => Message.addReminderNoTime (cap caps "text")),
  ([listRemindersRe], fun _ => Message.listReminders),
  ([clearAllRemindersRe], fun _ => Message.clearAllReminders),
  ([clearReminderRe], fun caps => Message.clearReminder (jsToNat (cap caps "id"))),
  ([timeRe], fun caps =>
    Message.time (parseQuantity (cap caps "quantity")) (parseUnit (cap caps "unit"))),
  ([yesRe], fun _ => Message.confirm true),
  ([noRe], fun _ => Message.confirm false)]

/-- JS `String.prototype.trim`: strip leading and trailing whitespace. -/
def trimChars (cs : List Char) : List Char :=
  ((cs.dropWhile Char.isWhitespace).reverse.dropWhile Char.isWhitespace).reverse

/-- Modelled from the spec: the dispatch loop of `createParser`
(`src/server/src/parser.ts` is not among the provided sources) — "normalize
input (trim); evaluate intents strictly in declaration order; within an
intent, evaluate patterns in order; the first pattern that matches the entire
normalized input (anchored start/end) wins ... If no intent matches, produce
`Unknown`", with the named captures passed to the intent's builder. -/
def dispatch : List (List RE × (Caps → Message)) → List Char → Message
  | [], _ => Message.unknown
  | (patterns, build) :: rest, cs =>
      match runPatterns patterns cs with
      | some caps => build caps
      | Option.none => dispatch rest cs

/-- Modelled from the spec: `parseMessage` as produced by `createParser`
(engine not among the sources; the intent table and regexps are from
`bot.ts`). -/
def parseMessage (raw : String) : Message := dispatch intents (trimChars raw.toList)

/-! ## Session state and the executor

`executeMessage` below embeds the synchronous body of the `executeMessage`
switch of `bot.ts`.  The `setTimeout` callbacks (firing notifications,
asking to remember a duration, removing the fired reminder) run
asynchronously outside the request/reply turn and are not part of this step
function; accordingly a reminder is represented by its id, firing timestamp
(`date`, at second granularity: `now + seconds`) and text. -/

/-- The `Reminder` record of `bot.ts` (the `timeout` handle, a host timer
capability, is omitted). -/
structure Reminder where
  id : Nat
  date : Nat
  text : String
deriving DecidableEq, Repr

/-- The `ReminderInfo` record of `bot.ts`: a partially filled dialog slot.
`add-reminder` pushes all four fields; `add-reminder-no-time` pushes only
`id` and `text`, leaving `quantity`/`unit` undefined. -/
structure ReminderInfo where
  id : Nat
  quantity : Option Nat
  unit : Option TimeUnits
  text : Option String
deriving DecidableEq, Repr

/-- The per-session `State` of `bot.ts` (the websocket handle is the
transport boundary and is omitted).  `userModel` is the JS `Map` keyed by
subject text, modelled as an association list in insertion order. -/
structure State where
  reminders : List Reminder
  nextId : Nat
  dialogHistory : List ReminderInfo
  userModel : List (String × Nat)
deriving DecidableEq, Repr

/-- The state built on connection open:
`{ nextId: 1, reminders: [], dialogHistory: [], userModel: new Map() }`. -/
def initialState : State :=
  { reminders := [], nextId := 1, dialogHistory := [], userModel := [] }

/-- JS `Map.prototype.has`. -/
def mapHas (m : List (String × Nat)) (k : String) : Bool :=
  m.any (fun p => p.1 == k)

/-- JS `Map.prototype.get` (`Option.none` is JS `undefined`). -/
def mapGet (m : List (String × Nat)) (k : String) : Option Nat :=
  (m.find? (fun p => p.1 == k)).map (fun p => p.2)

/-- JS `Map.prototype.set`: overwrite an existing key in place, otherwise
append the new entry. -/
def mapSet (m : List (String × Nat)) (k : String) (v : Nat) : List (String × Nat) :=
  if mapHas m k then m.map (fun p => if p.1 == k then (k, v) else p) else m ++ [(k, v)]

/-- JS `\w` word character. -/
def isWordChar (c : Char) : Bool := c.isAlphanum || c = '_'

/-- Does the list start with a word character (for the `\b` after a match)? -/
def headIsWordChar : List Char → Bool
  | [] => false
  | c :: _ => isWordChar c

/-- Whole-word, global, case-sensitive replacement of the two-character word
`a,b` by `repl` — the semantics of `text.replace(/\bxy\b/g, repl)` for the
two-letter words `my` and `me` used in `bot.ts`.  `prevIsWord` tracks whether
the previous character of the original text is a word character (the left
`\b`); after a replacement scanning resumes after the matched word. -/
def replaceWord2 (a b : Char) (repl : List Char) : Bool → List Char → List Char
  | _, [] => []
  | _, [c] => [c]
  | prevIsWord, c :: c2 :: cs =>
      if c = a && c2 = b && !prevIsWord && !headIsWordChar cs then
        repl ++ replaceWord2 a b repl true cs
      else
        c :: replaceWord2 a b repl (isWordChar c) (c2 :: cs)

/-- The subject-text normalization of `bot.ts`:
`text.replace(/\bmy\b/g, 'your').replace(/\bme\b/g, 'you')`. -/
def rewriteText (text : String) : String :=
  String.mk (replaceWord2 'm' 'e' "you".toList false
    (replaceWord2 'm' 'y' "your".toList false text.toList))

/-- The fixed fallback reply (cases `time`/`confirm` with empty history, and
case `unknown`). -/
def fallbackReply : String := "I'm sorry, I don't understand what you mean."

/-- `const unit = seconds === 1 ? 'second' : 'seconds'`. -/
def pluralUnit (seconds : Nat) : String := if seconds = 1 then "second" else "seconds"

/-- "Ok, I will remind you about ${text} in ${seconds} ${unit}." -/
def schedReply (text : String) (seconds : Nat) : String :=
  "Ok, I will remind you about " ++ text ++ " in " ++ toString seconds ++ " "
    ++ pluralUnit seconds ++ "."

/-- JS template interpolation of a possibly-undefined string. -/
def jsShowOpt : Option String → String
  | some t => t
  | Option.none => "undefined"

/-- "Ok, I will remind you about your ${text} in ${seconds} ${unit}." (the
`time` case interpolates the possibly-undefined context text after "your"). -/
def schedReplyYour (text : Option String) (seconds : Nat) : String :=
  "Ok, I will remind you about your " ++ jsShowOpt text ++ " in " ++ toString seconds
    ++ " " ++ pluralUnit seconds ++ "."

/-- "How long does your ${text} take?" -/
def askReply (text : String) : String := "How long does your " ++ text ++ " take?"

/-- The `helpMessage` template of `bot.ts`. -/
def helpMessage : String :=
  "I am a reminder bot, here to help you get organized. Here are some of the things you can ask me to do:\n\n<ul>\n  <li>Add reminders, e.g. <tt>remind me to make dinner in 5 minutes</tt>.</li>\n  <li>List reminders, e.g. <tt>show all reminders</tt>.\n  <li>Clear reminders, e.g. <tt>clear all reminders</tt> or <tt>clear reminder 3</tt>.\n</ul>\n\nAt the moment I am not very sophisticated, but maybe you can help make me better!"

/-- One row of the `list-reminders` table (`Math.round` of the whole-second
difference is the difference itself; it may be negative, hence `Int`). -/
def renderRow (now : Nat) (r : Reminder) : String :=
  "\n              <tr>\n                <td>" ++ toString r.id
    ++ "</td>\n                <td>" ++ toString ((r.date : Int) - (now : Int))
    ++ "</td>\n                <td>" ++ r.text ++ "</td>\n              </tr>"

/-- The `list-reminders` reply. -/
def listReply (now : Nat) (state : State) : String :=
  if state.reminders.isEmpty then "You have no reminders."
  else
    "\n      <table border=\"1\">\n        <thead>\n          <tr>\n            <th>id</th>\n            <th>seconds remaining</th>\n            <th>text</th>\n          </tr>\n        </thead>\n        <tbody>\n          "
      ++ String.join (state.reminders.map (renderRow now))
      ++ "\n        </tbody>\n      </table>"

/-- Case `add-reminder`: rewrite the subject, allocate `id = state.nextId++`,
push the complete dialog slot, schedule (push the reminder with
`date = now + seconds`), and reply. -/
def execAddReminder (now : Nat) (state : State) (text0 : String) (quantity : Nat)
    (unit : TimeUnits) : State × Option String :=
  let text := rewriteText text0
  let id := state.nextId
  let seconds := convertDurationToSeconds quantity unit
  ({ state with
      nextId := id + 1,
      dialogHistory := state.dialogHistory
        ++ [{ id := id, quantity := some quantity, unit := some unit, text := some text }],
      reminders := state.reminders ++ [{ id := id, date := now + seconds, text := text }] },
   some (schedReply text seconds))

/-- Case `add-reminder-no-time`: rewrite the subject, allocate a fresh id,
push the partial dialog slot; then consult the user model — `!seconds` (JS
falsiness: `undefined` or `0`) asks for the duration, otherwise the
remembered duration is scheduled immediately. -/
def execAddReminderNoTime (now : Nat) (state : State) (text0 : String) :
    State × Option String :=
  let text := rewriteText text0
  let id := state.nextId
  let state1 := { state with
    nextId := id + 1,
    dialogHistory := state.dialogHistory
      ++ [{ id := id, quantity := Option.none, unit := Option.none, text := some text }] }
  let seconds? := if mapHas state.userModel text then mapGet state.userModel text
    else Option.none
  match seconds? with
  | some seconds =>
      if seconds = 0 then (state1, some (askReply text))
      else
        ({ state1 with
            reminders := state1.reminders ++ [{ id := id, date := now + seconds, text := text }] },
         some (schedReply text seconds))
  | Option.none => (state1, some (askReply text))

/-- Case `time`: with empty history, the fallback; otherwise fill
quantity/unit on the last-pushed slot, schedule under the slot's id if the
slot's text is truthy, and reply. -/
def execTime (now : Nat) (state : State) (quantity : Nat) (unit : TimeUnits) :
    State × Option String :=
  match state.dialogHistory.getLast? with
  | Option.none => (state, some fallbackReply)
  | some cur0 =>
      let cur := { cur0 with quantity := some quantity, unit := some unit }
      let seconds := convertDurationToSeconds quantity unit
      let reminders1 :=
        match cur.text with
        | some text =>
            if text = "" then state.reminders
            else state.reminders ++ [{ id := cur.id, date := now + seconds, text := text }]
        | Option.none => state.reminders
      ({ state with
          dialogHistory := state.dialogHistory.dropLast ++ [cur],
          reminders := reminders1 },
       some (schedReplyYour cur.text seconds))

/-- Case `clear-reminder`: find the first reminder with the given id; if
none, report it, else cancel its timer and remove exactly that entry. -/
def execClearReminder (state : State) (id : Nat) : State × Option String :=
  match state.reminders.find? (fun r => r.id == id) with
  | Option.none => (state, some ("There is no reminder with id " ++ toString id ++ "."))
  | some reminder =>
      ({ state with reminders := state.reminders.eraseP (fun r => r.id == id) },
       some ("Ok, I will not remind you to " ++ reminder.text ++ "."))

/-- Case `confirm`: with empty history, the fallback; otherwise read the
last-pushed slot.  `if (text && unit && quantity)` in JS: `text` must be a
defined non-empty string, `unit` defined (every `TimeUnits` value is a
truthy string), `quantity` defined and non-zero.  When the guard holds and
the user accepted, the duration is written to the user model; when the guard
fails the case block falls off without returning (`Option.none` here),
falling through into case `unknown`. -/
def execConfirm (state : State) (accepted : Bool) : State × Option String :=
  match state.dialogHistory.getLast? with
  | Option.none => (state, some fallbackReply)
  | some cur =>
      match cur.text, cur.unit, cur.quantity with
      | some text, some unit, some quantity =>
          if text = "" ∨ quantity = 0 then (state, Option.none)
          else if accepted then
            ({ state with
                userModel := mapSet state.userModel text (convertDurationToSeconds quantity unit) },
             some "Consider it done.")
          else (state, some "Alright, I won't.")
      | _, _, _ => (state, Option.none)

/-- The `executeMessage` switch of `bot.ts` (synchronous part): returns the
updated state and the reply.  `Option.none` marks a case block that ends
without returning; the only such block (`confirm` with an incomplete slot)
falls through into case `unknown`, which the `confirm` arm reproduces. -/
def executeMessage (now : Nat) (state : State) (message : Message) : State × Option String :=
  match message with
  | Message.help => (state, some helpMessage)
  | Message.addReminder text quantity unit => execAddReminder now state text quantity unit
  | Message.addReminderNoTime text => execAddReminderNoTime now state text
  | Message.listReminders => (state, some (listReply now state))
  | Message.clearAllReminders =>
      ({ state with reminders := [] }, some "Ok, I have cleared all of your reminders.")
  | Message.clearReminder id => execClearReminder state id
  | Message.time quantity unit => execTime now state quantity unit
  | Message.confirm accepted =>
      match execConfirm state accepted with
      | (state2, some reply) => (state2, some reply)
      | (state2, Option.none) => (state2, some fallbackReply)
  | Message.unknown => (state, some fallbackReply)

/-- Is the message a `time` (`TimeSpec`) command? -/
def Message.isTime : Message → Bool
  | Message.time _ _ => true
  | _ => false

/-- States reachable from a fresh session by executing any sequence of parsed
commands (at arbitrary times). -/
inductive Reachable : State → Prop where
  | init : Reachable initialState
  | step (state : State) (now : Nat) (message : Message) :
      Reachable state → Reachable (executeMessage now state message).1

/-- States reachable from a fresh session by executing any sequence of parsed
commands that contains no `time` (`TimeSpec`) command. -/
inductive ReachableNT : State → Prop where
  | init : ReachableNT initialState
  | step (state : State) (now : Nat) (message : Message) :
      ReachableNT state → message.isTime = false →
      ReachableNT (executeMessage now state message).1

/-- The language of the `unit` capture group `(?<unit>(?:second|minute|hour)s?)`
under the `i` flag: the case-insensitive unit tokens the add-reminder and
time patterns admit. -/
def unitTokenMatches (u : String) : Bool :=
  ["second", "seconds", "minute", "minutes", "hour", "hours"].contains (strToLower u)

/-! ## Helper lemmas -/

lemma mapHas_eq_true_of_mapGet {m : List (String × Nat)} {k : String} {v : Nat}
    (h : mapGet m k = some v) : mapHas m k = true := by
  unfold mapGet at h
  unfold mapHas
  cases hf : m.find? (fun p => p.1 == k) with
  | none => rw [hf] at h; simp at h
  | some p =>
      have hmem := List.mem_of_find?_eq_some hf
      have hp := List.find?_some hf
      exact List.any_eq_true.mpr ⟨p, hmem, hp⟩

lemma mem_of_mapGet {m : List (String × Nat)} {k : String} {v : Nat}
    (h : mapGet m k = some v) : (k, v) ∈ m := by
  unfold mapGet at h
  cases hf : m.find? (fun p => p.1 == k) with
  | none => rw [hf] at h; simp at h
  | some p =>
      rcases p with ⟨k', v'⟩
      rw [hf] at h
      have hmem := List.mem_of_find?_eq_some hf
      have hp := List.find?_some hf
      simp at hp h
      subst hp; subst h
      exact hmem

/-- The `add-reminder-no-time` case on a subject whose (positive) duration is
remembered: the reminder is scheduled immediately with the remembered
duration and the scheduling confirmation is returned (no question asked). -/
lemma execAddReminderNoTime_hit (now : Nat) (state : State) (t : String) (d : Nat)
    (hget : mapGet state.userModel (rewriteText t) = some d) (hd : 0 < d) :
    executeMessage now state (Message.addReminderNoTime t)
      = ({ state with
            nextId := state.nextId + 1,
            dialogHistory := state.dialogHistory
              ++ [{ id := state.nextId, quantity := Option.none, unit := Option.none,
                    text := some (rewriteText t) }],
            reminders := state.reminders
              ++ [{ id := state.nextId, date := now + d, text := rewriteText t }] },
         some (schedReply (rewriteText t) d)) := by
  have hhas := mapHas_eq_true_of_mapGet hget
  simp only [executeMessage, execAddReminderNoTime, hhas, if_true, hget]
  simp [Nat.pos_iff_ne_zero.mp hd]

lemma convert_pos {q : Nat} (hq : q ≠ 0) (u : TimeUnits) :
    0 < convertDurationToSeconds q u := by
  cases u <;> simp [convertDurationToSeconds] <;> omega

lemma mapSet_pos {m : List (String × Nat)} {k : String} {v : Nat}
    (hm : ∀ p ∈ m, 0 < p.2) (hv : 0 < v) : ∀ p ∈ mapSet m k v, 0 < p.2 := by
  intro p hp
  unfold mapSet at hp
  split at hp
  · rcases List.mem_map.mp hp with ⟨q, hq, rfl⟩
    split
    · exact hv
    · exact hm q hq
  · rcases List.mem_append.mp hp with h | h
    · exact hm p h
    · simp at h; subst h; exact hv

/-- In every branch, `execConfirm` leaves `reminders`, `nextId` and
`dialogHistory` unchanged, and changes `userModel` at most by a `mapSet` of a
duration converted from a non-zero quantity. -/
lemma execConfirm_state (state : State) (b : Bool) :
    ((execConfirm state b).1.reminders = state.reminders ∧
     (execConfirm state b).1.nextId = state.nextId ∧
     (execConfirm state b).1.dialogHistory = state.dialogHistory) ∧
    ((execConfirm state b).1.userModel = state.userModel ∨
     ∃ text q u, q ≠ 0 ∧
       (execConfirm state b).1.userModel
         = mapSet state.userModel text (convertDurationToSeconds q u)) := by
  unfold execConfirm
  cases hl : state.dialogHistory.getLast? with
  | none => simp
  | some cur =>
      rcases cur with ⟨id, q, u, t⟩
      cases t with
      | none => simp
      | some text =>
        cases u with
        | none => simp
        | some unit =>
          cases q with
          | none => simp
          | some quantity =>
            simp only
            split
            · simp
            · next hcond =>
              have hq : quantity ≠ 0 := by
                intro h; exact hcond (Or.inr h)
              cases b
              · simp
              · refine ⟨by simp, Or.inr ⟨text, quantity, unit, hq, ?_⟩⟩
                simp

lemma executeMessage_confirm_fst (now : Nat) (state : State) (b : Bool) :
    (executeMessage now state (Message.confirm b)).1 = (execConfirm state b).1 := by
  simp only [executeMessage]
  rcases h : execConfirm state b with ⟨s2, r⟩
  cases r <;> simp

/-- One executor step preserves positivity of every remembered duration. -/
lemma userModel_pos_step (now : Nat) (state : State) (message : Message)
    (h : ∀ p ∈ state.userModel, 0 < p.2) :
    ∀ p ∈ (executeMessage now state message).1.userModel, 0 < p.2 := by
  cases message with
  | help => exact h
  | addReminder t q u => simpa [executeMessage, execAddReminder] using h
  | addReminderNoTime t =>
      simp only [executeMessage, execAddReminderNoTime]
      split
      · split <;> simpa using h
      · simpa using h
  | listReminders => exact h
  | clearAllReminders => simpa [executeMessage] using h
  | clearReminder id =>
      simp only [executeMessage, execClearReminder]
      split <;> simpa using h
  | time q u =>
      simp only [executeMessage, execTime]
      split
      · simpa using h
      · simpa using h
  | confirm b =>
      rw [executeMessage_confirm_fst]
      rcases (execConfirm_state state b).2 with heq | ⟨text, q, u, hq, heq⟩
      · rw [heq]; exact h
      · rw [heq]; exact mapSet_pos h (convert_pos hq u)
  | unknown => exact h

lemma nodup_push {l : List Reminder} {n : Nat} {r : Reminder}
    (hnd : (l.map (fun x => x.id)).Nodup) (hlt : ∀ x ∈ l, x.id < n) (hr : r.id = n) :
    (((l ++ [r]).map (fun x => x.id)).Nodup) ∧ ∀ x ∈ l ++ [r], x.id < n + 1 := by
  constructor
  · rw [List.map_append, List.nodup_append]
    refine ⟨hnd, by simp, ?_⟩
    intro a ha hb
    simp only [List.map_cons, List.map_nil, List.mem_singleton] at hb
    rcases List.mem_map.mp ha with ⟨x, hx, rfl⟩
    have := hlt x hx
    omega
  · intro x hx
    rcases List.mem_append.mp hx with h | h
    · exact Nat.lt_succ_of_lt (hlt x h)
    · simp at h; subst h; omega

/-- One executor step on a non-`time` command preserves distinctness of the
scheduled reminder ids together with the bound `id < nextId`. -/
lemma reminders_invariant_step (now : Nat) (state : State) (message : Message)
    (hnd : (state.reminders.map (fun r => r.id)).Nodup)
    (hlt : ∀ r ∈ state.reminders, r.id < state.nextId)
    (ht : message.isTime = false) :
    (((executeMessage now state message).1.reminders.map (fun r => r.id)).Nodup) ∧
    ∀ r ∈ (executeMessage now state message).1.reminders,
      r.id < (executeMessage now state message).1.nextId := by
  cases message with
  | help => exact ⟨hnd, hlt⟩
  | addReminder t q u =>
      simp only [executeMessage, execAddReminder]
      exact nodup_push hnd hlt rfl
  | addReminderNoTime t =>
      simp only [executeMessage, execAddReminderNoTime]
      split
      · split
        · refine ⟨hnd, fun r hr => Nat.lt_succ_of_lt (hlt r hr)⟩
        · exact nodup_push hnd hlt rfl
      · refine ⟨hnd, fun r hr => Nat.lt_succ_of_lt (hlt r hr)⟩
  | listReminders => exact ⟨hnd, hlt⟩
  | clearAllReminders => exact ⟨by simp [executeMessage], by simp [executeMessage]⟩
  | clearReminder id =>
      simp only [executeMessage, execClearReminder]
      split
      · exact ⟨hnd, hlt⟩
      · constructor
        · exact hnd.sublist (List.Sublist.map _ (List.eraseP_sublist _))
        · intro r hr
          exact hlt r (List.mem_of_mem_eraseP hr)
  | time q u => simp [Message.isTime] at ht
  | confirm b =>
      rw [executeMessage_confirm_fst] at *
      rcases (execConfirm_state state b).1 with ⟨hr, hn, _⟩
      rw [hr, hn]
      exact ⟨hnd, hlt⟩
  | unknown => exact ⟨hnd, hlt⟩

/-! ## Claim theorems -/

/-- C1: evaluation of the duration normalizer at the claimed round-trip
inputs.  The `"a"`/`"hour"` and `"10"`/`"seconds"` cases behave as the claim
states (3600 and 10), but for `"5"`/`"minutes"` the missing `break` makes the
`minutes` branch fall through into the `hours` branch, yielding
5·60·3600 = 1080000 seconds instead of the claimed 300. -/
theorem duration_round_trip_eval :
    convertDurationToSeconds (parseQuantity "5") (parseUnit "minutes") = 1080000 ∧
    convertDurationToSeconds (parseQuantity "a") (parseUnit "hour") = 3600 ∧
    convertDurationToSeconds (parseQuantity "10") (parseUnit "seconds") = 10 := by
  decide

/-- C2: dialog continuity from a fresh session.  "remind me about my
homework" indeed yields "How long does your homework take?", but the
following "20 minutes" is converted through the falling-through `minutes`
branch, so the completion reply says 4320000 seconds (20·60·3600), not the
claimed 1200. -/
theorem dialog_continuity_eval :
    (executeMessage 0 initialState (parseMessage "remind me about my homework")).2
      = some "How long does your homework take?" ∧
    (executeMessage 0
        (executeMessage 0 initialState (parseMessage "remind me about my homework")).1
        (parseMessage "20 minutes")).2
      = some "Ok, I will remind you about your homework in 4320000 seconds." := by
  decide

/-- C3 counterexample: a `time` command sent immediately after a complete
`add-reminder` reuses the id of the last dialog slot, so the active reminder
list ends up holding two entries with id 1 — refuting the claim that no two
entries of the list ever share an id. -/
theorem reminder_id_reused_by_timespec :
    ((executeMessage 0 (executeMessage 0 initialState
        (Message.addReminder "laundry" 5 TimeUnits.seconds)).1
        (Message.time 5 TimeUnits.seconds)).1.reminders.map (fun r => r.id)) = [1, 1] ∧
    ¬ ((executeMessage 0 (executeMessage 0 initialState
        (Message.addReminder "laundry" 5 TimeUnits.seconds)).1
        (Message.time 5 TimeUnits.seconds)).1.reminders.map (fun r => r.id)).Nodup := by
  decide

/-- C3 (amended): along every command sequence that contains no `time`
(`TimeSpec`) command, the ids of the active reminders are pairwise distinct —
they come from the monotonic `nextId` counter starting at 1 and are never
reused, even for reminders created with identical text and duration. -/
theorem reminder_ids_nodup_without_timespec (state : State) (h : ReachableNT state) :
    (state.reminders.map (fun r => r.id)).Nodup := by
  suffices hs : (state.reminders.map (fun r => r.id)).Nodup ∧
      ∀ r ∈ state.reminders, r.id < state.nextId from hs.1
  induction h with
  | init => exact ⟨by simp [initialState], by simp [initialState]⟩
  | step s now msg hr hm ih => exact reminders_invariant_step now s msg ih.1 ih.2 hm

/-- C3 witness: two reminders created with identical text and duration get
the distinct ids 1 and 2. -/
theorem reminder_ids_nodup_without_timespec_witness :
    (((executeMessage 0 (executeMessage 0 initialState
        (Message.addReminder "laundry" 5 TimeUnits.seconds)).1
        (Message.addReminder "laundry" 5 TimeUnits.seconds)).1.reminders.map
          (fun r => r.id)).Nodup) :=
  reminder_ids_nodup_without_timespec _
    (ReachableNT.step _ 0 _ (ReachableNT.step _ 0 _ ReachableNT.init rfl) rfl)

/-- C4: the unit capture groups of the add-reminder and time patterns admit
only (case-insensitive) second/minute/hour tokens, and on every such token
`parseUnit` never produces `TimeUnits.none` — so a `none` unit never reaches
the conversion from the parsing pipeline. -/
theorem parsed_unit_never_none (u : String) (h : unitTokenMatches u = true) :
    parseUnit u ≠ TimeUnits.none := by
  simp [unitTokenMatches] at h
  rcases h with h | h | h | h | h | h <;> simp only [parseUnit, h] <;> decide

/-- C4 witness at the token "MINUTES" (exercising case-insensitivity). -/
theorem parsed_unit_never_none_witness :
    unitTokenMatches "MINUTES" = true ∧ parseUnit "MINUTES" ≠ TimeUnits.none :=
  ⟨by decide, parsed_unit_never_none "MINUTES" (by decide)⟩

/-- C5: totality of the executor — for every command variant and every
session state, `executeMessage` produces exactly one reply string; in
particular the `confirm` case with a non-empty history and an incomplete
slot, whose block ends without returning, still yields a reply through the
fall-through into the `unknown` case. -/
theorem executor_total (now : Nat) (state : State) (message : Message) :
    ∃ reply : String, (executeMessage now state message).2 = some reply := by
  cases message with
  | help => exact ⟨_, rfl⟩
  | addReminder t q u => exact ⟨_, rfl⟩
  | addReminderNoTime t =>
      simp only [executeMessage, execAddReminderNoTime]
      split
      · split
        · exact ⟨_, rfl⟩
        · exact ⟨_, rfl⟩
      · exact ⟨_, rfl⟩
  | listReminders => exact ⟨_, rfl⟩
  | clearAllReminders => exact ⟨_, rfl⟩
  | clearReminder id =>
      simp only [executeMessage, execClearReminder]
      split
      · exact ⟨_, rfl⟩
      · exact ⟨_, rfl⟩
  | time q u =>
      simp only [executeMessage, execTime]
      split
      · exact ⟨_, rfl⟩
      · exact ⟨_, rfl⟩
  | confirm b =>
      simp only [executeMessage]
      rcases h : execConfirm state b with ⟨s2, r⟩
      cases r
      · exact ⟨_, rfl⟩
      · exact ⟨_, rfl⟩
  | unknown => exact ⟨_, rfl⟩

/-- C6: memory reuse — if the duration memory maps the (my/me-rewritten)
subject of an `add-reminder-no-time` command to a confirmed (positive)
duration `d`, the executor immediately schedules a reminder for `now + d`
under a fresh id and replies with the scheduling confirmation instead of
asking for the duration again. -/
theorem memory_reuse_schedules_immediately (now : Nat) (state : State) (t : String)
    (d : Nat) (hget : mapGet state.userModel (rewriteText t) = some d) (hd : 0 < d) :
    executeMessage now state (Message.addReminderNoTime t)
      = ({ state with
            nextId := state.nextId + 1,
            dialogHistory := state.dialogHistory
              ++ [{ id := state.nextId, quantity := Option.none, unit := Option.none,
                    text := some (rewriteText t) }],
            reminders := state.reminders
              ++ [{ id := state.nextId, date := now + d, text := rewriteText t }] },
         some (schedReply (rewriteText t) d)) :=
  execAddReminderNoTime_hit now state t d hget hd

/-- C6 witness: with "your homework" remembered at 300 seconds, "remind me
about my homework" (no duration) schedules immediately and confirms. -/
theorem memory_reuse_schedules_immediately_witness :
    executeMessage 7
        { reminders := [], nextId := 5, dialogHistory := [],
          userModel := [("your homework", 300)] }
        (Message.addReminderNoTime "my homework")
      = ({ reminders := [{ id := 5, date := 307, text := "your homework" }],
           nextId := 6,
           dialogHistory := [{ id := 5, quantity := Option.none, unit := Option.none,
                               text := some "your homework" }],
           userModel := [("your homework", 300)] },
         some "Ok, I will remind you about your homework in 300 seconds.") :=
  memory_reuse_schedules_immediately 7
    { reminders := [], nextId := 5, dialogHistory := [],
      userModel := [("your homework", 300)] }
    "my homework" 300 (by decide) (by decide)

/-- C7: dialog underflow — with an empty dialog history, both a `time` and a
`confirm` command return the fixed fallback reply and leave the entire
session state unchanged. -/
theorem dialog_underflow_fallback (now : Nat) (state : State) (q : Nat) (u : TimeUnits)
    (b : Bool) (h : state.dialogHistory = []) :
    executeMessage now state (Message.time q u) = (state, some fallbackReply) ∧
    executeMessage now state (Message.confirm b) = (state, some fallbackReply) := by
  have hl : state.dialogHistory.getLast? = Option.none := by rw [h]; rfl
  constructor
  · simp [executeMessage, execTime, hl]
  · simp [executeMessage, execConfirm, hl]

/-- C7 witness at the fresh session state. -/
theorem dialog_underflow_fallback_witness :
    executeMessage 0 initialState (Message.time 1 TimeUnits.seconds)
      = (initialState, some fallbackReply) ∧
    executeMessage 0 initialState (Message.confirm true)
      = (initialState, some fallbackReply) :=
  dialog_underflow_fallback 0 initialState 1 TimeUnits.seconds true rfl

/-- C8: unknown input is pure — "banana" parses to the `unknown` command,
and executing `unknown` in any state returns the fixed fallback reply with
the state (reminders, id counter, dialog history, duration memory) entirely
unchanged. -/
theorem unknown_input_pure :
    parseMessage "banana" = Message.unknown ∧
    ∀ (now : Nat) (state : State),
      executeMessage now state Message.unknown = (state, some fallbackReply) :=
  ⟨by decide, fun _ _ => rfl⟩

/-- C9: a `confirm` command against a non-empty dialog history whose last
slot is incomplete (text, quantity or unit undefined, or quantity 0) falls
through to the `unknown` case: the reply is the fallback and the state —
including the duration memory — is unchanged, whatever the answer was. -/
theorem confirm_incomplete_fallthrough (now : Nat) (state : State) (b : Bool)
    (cur : ReminderInfo) (hlast : state.dialogHistory.getLast? = some cur)
    (hinc : cur.text = Option.none ∨ cur.quantity = Option.none ∨
      cur.quantity = some 0 ∨ cur.unit = Option.none) :
    executeMessage now state (Message.confirm b) = (state, some fallbackReply) := by
  have hc : execConfirm state b = (state, Option.none) := by
    unfold execConfirm
    rw [hlast]
    rcases cur with ⟨id, q, u, t⟩
    simp only at hinc
    cases t <;> cases u <;> cases q <;> simp_all
  simp [executeMessage, hc]

/-- C9 witness: an awaiting-duration slot (quantity and unit undefined). -/
theorem confirm_incomplete_fallthrough_witness :
    executeMessage 0
        { reminders := [], nextId := 2,
          dialogHistory := [{ id := 1, quantity := Option.none, unit := Option.none,
                              text := some "homework" }],
          userModel := [] }
        (Message.confirm true)
      = ({ reminders := [], nextId := 2,
           dialogHistory := [{ id := 1, quantity := Option.none, unit := Option.none,
                               text := some "homework" }],
           userModel := [] },
         some fallbackReply) :=
  confirm_incomplete_fallthrough 0
    { reminders := [], nextId := 2,
      dialogHistory := [{ id := 1, quantity := Option.none, unit := Option.none,
                          text := some "homework" }],
      userModel := [] }
    true
    { id := 1, quantity := Option.none, unit := Option.none, text := some "homework" }
    rfl (Or.inr (Or.inl rfl))

/-- C10: in every reachable session state, every value stored in the
duration memory is positive (the only write path, an accepted `confirm` with
a truthy quantity, stores a conversion of a non-zero quantity); hence a
memory hit in `add-reminder-no-time` always passes the `!seconds` falsiness
check and schedules, never re-asking for a remembered subject. -/
theorem userModel_positive_of_reachable (state : State) (h : Reachable state) :
    (∀ p ∈ state.userModel, 0 < p.2) ∧
    ∀ (now : Nat) (t : String) (d : Nat),
      mapGet state.userModel (rewriteText t) = some d →
      (executeMessage now state (Message.addReminderNoTime t)).2
        = some (schedReply (rewriteText t) d) := by
  have hpos : ∀ p ∈ state.userModel, 0 < p.2 := by
    induction h with
    | init => simp [initialState]
    | step s now msg hr ih => exact userModel_pos_step now s msg ih
  refine ⟨hpos, fun now t d hget => ?_⟩
  have hd : 0 < d := hpos _ (mem_of_mapGet hget)
  rw [execAddReminderNoTime_hit now state t d hget hd]

/-- C10 witness: after `add-reminder` "homework in 5 seconds" followed by an
accepted confirmation, the memory holds ("homework", 5); a later
`add-reminder-no-time` for "homework" schedules at once with the confirmation
reply. -/
theorem userModel_positive_of_reachable_witness :
    (executeMessage 3
        (executeMessage 0
          (executeMessage 0 initialState
            (Message.addReminder "homework" 5 TimeUnits.seconds)).1
          (Message.confirm true)).1
        (Message.addReminderNoTime "homework")).2
      = some (schedReply (rewriteText "homework") 5) :=
  (userModel_positive_of_reachable _
      (Reachable.step _ 0 _ (Reachable.step _ 0 _ Reachable.init))).2
    3 "homework" 5 (by decide)
